import Mathlib

/-!
Verification of the objective-evaluation and optimization-control core of the
`calibration_hybrid` repository, as a shallow embedding in Lean 4.

Python floats are modelled as exact rationals (`ℚ`) where the code only uses
field arithmetic and comparisons, and as reals (`ℝ`) where a square root is
taken.  Python `dict` field access via `d['key']` on a key that may be absent
is modelled with `Option`; a direct access on an absent key is a `KeyError`,
modelled with `Except`.
-/

namespace CalibrationHybrid

/-! ## Parameter bounds (`export_to_unity.py`, `PARAMETER_BOUNDS`) -/

/-- The 18 canonical parameter bounds, in the canonical order of
`PARAMETER_NAMES` (insertion order of the `PARAMETER_BOUNDS` dict in
`export_to_unity.py`). -/
def PARAMETER_BOUNDS : List (ℚ × ℚ) :=
  [ (0.15, 0.35),   -- minimalDistance
    (0.3,  0.8),    -- relaxationTime
    (0.8,  1.8),    -- repulsionStrengthAgent
    (3.0,  7.0),    -- repulsionRangeAgent
    (0.2,  0.5),    -- lambdaAgent
    (0.6,  1.5),    -- repulsionStrengthObs
    (3.0,  7.0),    -- repulsionRangeObs
    (0.2,  0.5),    -- lambdaObs
    (5.0,  12.0),   -- k
    (3.0,  7.0),    -- kappa
    (2.0,  4.5),    -- obsK
    (0.0,  2.0),    -- obsKappa
    (2.0,  4.0),    -- considerationRange
    (120.0, 180.0), -- viewAngle
    (200.0, 270.0), -- viewAngleMax
    (3.0,  10.0),   -- viewDistance
    (15.0, 45.0),   -- rayStepAngle
    (0.5,  0.9) ]   -- visibleFactor

/-- One clamping step of `validate_and_clamp_params`
(`core/parameter_utils.py`): `if x < low: x = low elif x > high: x = high`. -/
def clampPair (bound : ℚ × ℚ) (x : ℚ) : ℚ :=
  if x < bound.1 then bound.1 else if bound.2 < x then bound.2 else x

/-- `validate_and_clamp_params` (`core/parameter_utils.py` lines 75-94):
copies the input and clamps entry `i` to bound `i` for each of the 18 bounds.
Indexing `clamped[i]` with `i < len(bounds)` raises `IndexError` when the
input is shorter than the bounds list, modelled as `none`; entries past the
bounds list are untouched. -/
def validate_and_clamp_params (ps : List ℚ) : Option (List ℚ) :=
  if ps.length < PARAMETER_BOUNDS.length then none
  else some (List.zipWith clampPair PARAMETER_BOUNDS ps ++ ps.drop PARAMETER_BOUNDS.length)

/-- Entry `i` of the parameter vector lies within the `i`-th inclusive bound. -/
def inBoundsAt (ps : List ℚ) (i : ℕ) : Prop :=
  (PARAMETER_BOUNDS.getD i (0, 0)).1 ≤ ps.getD i 0 ∧
    ps.getD i 0 ≤ (PARAMETER_BOUNDS.getD i (0, 0)).2

instance (ps : List ℚ) (i : ℕ) : Decidable (inBoundsAt ps i) := by
  unfold inBoundsAt; infer_instance

lemma clampPair_of_inBounds (b : ℚ × ℚ) (x : ℚ) (h1 : b.1 ≤ x) (h2 : x ≤ b.2) :
    clampPair b x = x := by
  unfold clampPair
  rw [if_neg (not_lt.mpr h1), if_neg (not_lt.mpr h2)]

lemma clampPair_mem (b : ℚ × ℚ) (x : ℚ) (hb : b.1 ≤ b.2) :
    b.1 ≤ clampPair b x ∧ clampPair b x ≤ b.2 := by
  unfold clampPair
  split
  · exact ⟨le_refl _, hb⟩
  · split
    · exact ⟨hb, le_refl _⟩
    · exact ⟨le_of_not_lt (by assumption), le_of_not_lt (by assumption)⟩

lemma clampPair_idem (b : ℚ × ℚ) (x : ℚ) (hb : b.1 ≤ b.2) :
    clampPair b (clampPair b x) = clampPair b x := by
  rcases clampPair_mem b x hb with ⟨h1, h2⟩
  exact clampPair_of_inBounds b _ h1 h2

lemma parameter_bounds_length : PARAMETER_BOUNDS.length = 18 := rfl

/-- Every bound in the table is well-formed (`low ≤ high`). -/
lemma parameter_bounds_wf :
    ∀ i < PARAMETER_BOUNDS.length,
      (PARAMETER_BOUNDS.getD i (0, 0)).1 ≤ (PARAMETER_BOUNDS.getD i (0, 0)).2 := by
  rw [parameter_bounds_length]
  intro i hi
  interval_cases i <;> norm_num [PARAMETER_BOUNDS]

lemma zipWith_clampPair_of_inBounds :
    ∀ (bs : List (ℚ × ℚ)) (ps : List ℚ),
      bs.length ≤ ps.length →
      (∀ i < bs.length,
        (bs.getD i (0, 0)).1 ≤ ps.getD i 0 ∧ ps.getD i 0 ≤ (bs.getD i (0, 0)).2) →
      List.zipWith clampPair bs ps = ps.take bs.length := by
  intro bs
  induction bs with
  | nil => intro ps _ _; simp
  | cons b bs ih =>
    intro ps hlen hin
    cases ps with
    | nil => simp at hlen
    | cons p ps =>
      have h0 := hin 0 (by simp)
      simp only [List.getD_cons_zero] at h0
      simp only [List.zipWith_cons_cons, List.length_cons, List.take_succ_cons]
      rw [clampPair_of_inBounds b p h0.1 h0.2]
      congr 1
      apply ih ps (by simpa using hlen)
      intro i hi
      have := hin (i + 1) (by simpa using hi)
      simpa using this

lemma zipWith_clampPair_single_violation :
    ∀ (bs : List (ℚ × ℚ)) (ps : List ℚ) (j : ℕ) (v : ℚ),
      bs.length ≤ ps.length → j < bs.length →
      (∀ i < bs.length, i ≠ j →
        (bs.getD i (0, 0)).1 ≤ ps.getD i 0 ∧ ps.getD i 0 ≤ (bs.getD i (0, 0)).2) →
      clampPair (bs.getD j (0, 0)) (ps.getD j 0) = v →
      List.zipWith clampPair bs ps = (ps.take bs.length).set j v := by
  intro bs
  induction bs with
  | nil => intro ps j v _ hj _ _; simp at hj
  | cons b bs ih =>
    intro ps j v hlen hj hin hv
    cases ps with
    | nil => simp at hlen
    | cons p ps =>
      cases j with
      | zero =>
        simp only [List.getD_cons_zero] at hv
        simp only [List.zipWith_cons_cons, List.length_cons, List.take_succ_cons,
          List.set_cons_zero]
        rw [hv]
        congr 1
        apply zipWith_clampPair_of_inBounds bs ps (by simpa using hlen)
        intro i hi
        have := hin (i + 1) (by simpa using hi) (by simp)
        simpa using this
      | succ j =>
        have h0 := hin 0 (by simp) (by simp)
        simp only [List.getD_cons_zero] at h0
        simp only [List.getD_cons_succ] at hv
        simp only [List.zipWith_cons_cons, List.length_cons, List.take_succ_cons,
          List.set_cons_succ]
        rw [clampPair_of_inBounds b p h0.1 h0.2]
        congr 1
        apply ih ps j v (by simpa using hlen) (by simpa using hj) _ hv
        intro i hi hij
        have := hin (i + 1) (by simpa using hi) (by simpa using hij)
        simpa using this

/-- C9: `validate_and_clamp_params` is the identity on in-bounds vectors, and
pins a single out-of-bounds entry to the nearest bound leaving all other
entries unchanged. -/
theorem validate_and_clamp_identity_and_single_pin (ps : List ℚ)
    (hlen : ps.length = 18) :
    ((∀ i < 18, inBoundsAt ps i) → validate_and_clamp_params ps = some ps) ∧
    (∀ j < 18, (∀ i < 18, i ≠ j → inBoundsAt ps i) →
      (ps.getD j 0 < (PARAMETER_BOUNDS.getD j (0, 0)).1 →
        validate_and_clamp_params ps =
          some (ps.set j (PARAMETER_BOUNDS.getD j (0, 0)).1)) ∧
      ((PARAMETER_BOUNDS.getD j (0, 0)).2 < ps.getD j 0 →
        validate_and_clamp_params ps =
          some (ps.set j (PARAMETER_BOUNDS.getD j (0, 0)).2))) := by
  have hlen' : PARAMETER_BOUNDS.length ≤ ps.length := by
    rw [parameter_bounds_length, hlen]
  have hdrop : ps.drop PARAMETER_BOUNDS.length = [] := by
    rw [parameter_bounds_length]
    exact List.drop_eq_nil_of_le (by omega)
  have htake : ps.take PARAMETER_BOUNDS.length = ps := by
    rw [parameter_bounds_length]
    exact List.take_of_length_le (by omega)
  have hnone : ¬ ps.length < PARAMETER_BOUNDS.length := by
    rw [parameter_bounds_length]; omega
  constructor
  · intro hin
    unfold validate_and_clamp_params
    rw [if_neg hnone, hdrop, List.append_nil]
    rw [zipWith_clampPair_of_inBounds PARAMETER_BOUNDS ps hlen'
      (by rw [parameter_bounds_length]; exact fun i hi => hin i hi), htake]
  · intro j hj hin
    constructor
    · intro hlow
      unfold validate_and_clamp_params
      rw [if_neg hnone, hdrop, List.append_nil]
      rw [zipWith_clampPair_single_violation PARAMETER_BOUNDS ps j
        (PARAMETER_BOUNDS.getD j (0, 0)).1 hlen'
        (by rw [parameter_bounds_length]; omega)
        (by rw [parameter_bounds_length]; exact fun i hi hij => hin i hi hij)
        (by unfold clampPair; rw [if_pos hlow]), htake]
    · intro hhigh
      unfold validate_and_clamp_params
      rw [if_neg hnone, hdrop, List.append_nil]
      have hnl : ¬ ps.getD j 0 < (PARAMETER_BOUNDS.getD j (0, 0)).1 := by
        have hwf := parameter_bounds_wf j (by rw [parameter_bounds_length]; omega)
        push_neg
        exact le_trans hwf (le_of_lt hhigh)
      rw [zipWith_clampPair_single_violation PARAMETER_BOUNDS ps j
        (PARAMETER_BOUNDS.getD j (0, 0)).2 hlen'
        (by rw [parameter_bounds_length]; omega)
        (by rw [parameter_bounds_length]; exact fun i hi hij => hin i hi hij)
        (by unfold clampPair; rw [if_neg hnl, if_pos hhigh]), htake]

/-- A concrete 18-entry parameter vector strictly inside every bound. -/
def insideVec : List ℚ :=
  [0.2, 0.5, 1.0, 5.0, 0.3, 1.0, 5.0, 0.3, 6.0, 5.0, 3.0, 1.0, 3.0,
   150.0, 250.0, 5.0, 30.0, 0.7]

/-- Witness for C9 at a concrete in-bounds vector. -/
theorem validate_and_clamp_identity_and_single_pin_witness :
    insideVec.length = 18 ∧ validate_and_clamp_params insideVec = some insideVec :=
  ⟨by norm_num [insideVec],
   (validate_and_clamp_identity_and_single_pin insideVec (by norm_num [insideVec])).1
     (by
       intro i hi
       interval_cases i <;>
         norm_num [inBoundsAt, insideVec, PARAMETER_BOUNDS, List.getD])⟩

lemma getD_zipWith_clampPair :
    ∀ (bs : List (ℚ × ℚ)) (ps : List ℚ) (i : ℕ), i < bs.length → i < ps.length →
      (List.zipWith clampPair bs ps).getD i 0 =
        clampPair (bs.getD i (0, 0)) (ps.getD i 0) := by
  intro bs
  induction bs with
  | nil => intro ps i hi _; simp at hi
  | cons b bs ih =>
    intro ps i hi hip
    cases ps with
    | nil => simp at hip
    | cons p ps =>
      cases i with
      | zero => simp
      | succ i =>
        simp only [List.zipWith_cons_cons, List.getD_cons_succ]
        exact ih ps i (by simpa using hi) (by simpa using hip)

/-- C10: on every 18-entry vector, the output of `validate_and_clamp_params`
lies within every inclusive bound, and the function is idempotent. -/
theorem validate_and_clamp_in_bounds_and_idempotent (ps : List ℚ)
    (hlen : ps.length = 18) :
    ∃ qs, validate_and_clamp_params ps = some qs ∧
      (∀ i < 18, inBoundsAt qs i) ∧
      validate_and_clamp_params qs = some qs := by
  have hnone : ¬ ps.length < PARAMETER_BOUNDS.length := by
    rw [parameter_bounds_length]; omega
  have hdrop : ps.drop PARAMETER_BOUNDS.length = [] := by
    rw [parameter_bounds_length]
    exact List.drop_eq_nil_of_le (by omega)
  refine ⟨List.zipWith clampPair PARAMETER_BOUNDS ps, ?_, ?_, ?_⟩
  · unfold validate_and_clamp_params
    rw [if_neg hnone, hdrop, List.append_nil]
  · intro i hi
    have hq : (List.zipWith clampPair PARAMETER_BOUNDS ps).getD i 0 =
        clampPair (PARAMETER_BOUNDS.getD i (0, 0)) (ps.getD i 0) :=
      getD_zipWith_clampPair PARAMETER_BOUNDS ps i
        (by rw [parameter_bounds_length]; omega) (by omega)
    have hwf := parameter_bounds_wf i (by rw [parameter_bounds_length]; omega)
    have := clampPair_mem (PARAMETER_BOUNDS.getD i (0, 0)) (ps.getD i 0) hwf
    exact ⟨by rw [hq]; exact this.1, by rw [hq]; exact this.2⟩
  · have hqlen : (List.zipWith clampPair PARAMETER_BOUNDS ps).length = 18 := by
      rw [List.length_zipWith, parameter_bounds_length, hlen]
      exact min_self 18
    have hnone' : ¬ (List.zipWith clampPair PARAMETER_BOUNDS ps).length <
        PARAMETER_BOUNDS.length := by
      rw [parameter_bounds_length, hqlen]; omega
    have hdrop' : (List.zipWith clampPair PARAMETER_BOUNDS ps).drop
        PARAMETER_BOUNDS.length = [] := by
      rw [parameter_bounds_length]
      exact List.drop_eq_nil_of_le (le_of_eq hqlen)
    unfold validate_and_clamp_params
    rw [if_neg hnone', hdrop', List.append_nil]
    rw [zipWith_clampPair_of_inBounds PARAMETER_BOUNDS _
      (by rw [parameter_bounds_length, hqlen])]
    · rw [parameter_bounds_length]
      exact congrArg some (List.take_of_length_le (le_of_eq hqlen))
    · intro i hi
      have hq : (List.zipWith clampPair PARAMETER_BOUNDS ps).getD i 0 =
          clampPair (PARAMETER_BOUNDS.getD i (0, 0)) (ps.getD i 0) :=
        getD_zipWith_clampPair PARAMETER_BOUNDS ps i hi (by rw [hlen]; omega)
      have hwf := parameter_bounds_wf i hi
      have := clampPair_mem (PARAMETER_BOUNDS.getD i (0, 0)) (ps.getD i 0) hwf
      exact ⟨by rw [hq]; exact this.1, by rw [hq]; exact this.2⟩

/-- Witness for C10 at the all-zero vector (many entries out of bounds). -/
theorem validate_and_clamp_in_bounds_and_idempotent_witness :
    (List.replicate 18 (0 : ℚ)).length = 18 ∧
    ∃ qs, validate_and_clamp_params (List.replicate 18 (0 : ℚ)) = some qs ∧
      (∀ i < 18, inBoundsAt qs i) ∧
      validate_and_clamp_params qs = some qs :=
  ⟨by simp,
   validate_and_clamp_in_bounds_and_idempotent (List.replicate 18 (0 : ℚ)) (by simp)⟩

/-! ## Simulation results and objective metrics (`evaluate_objective.py`) -/

/-- One entry of the `agentErrors` list of a simulation result.  `meanError`
is accessed directly (`agent['meanError']`); the per-sample list is accessed
with `agent.get('errors', [])`, so the key may be absent (`none`).  Each
element of `errors` is the sample's `error` value. -/
structure AgentErrorRec where
  meanError : ℚ
  errors : Option (List ℚ)
deriving DecidableEq

/-- The sample error series of an agent: `agent.get('errors', [])`. -/
def agentSampleErrors (a : AgentErrorRec) : List ℚ := a.errors.getD []

/-- A parsed simulation result, keeping exactly the top-level keys the scorer
touches.  Absent keys are `none`; `densityMetrics = some d` holds the
`densityRMSE` value of a present, non-null density block. -/
structure SimulationResult where
  agentErrors : Option (List AgentErrorRec)
  averageError : Option ℚ
  densityMetrics : Option ℚ
deriving DecidableEq

/-- Objective weights (`WEIGHTS` dict in `evaluate_objective.py`). -/
def WEIGHTS_mean_error : ℚ := 0.40

/-- Weight of the 95th-percentile metric. -/
def WEIGHTS_percentile_95 : ℚ := 0.25

/-- Weight of the time-growth metric. -/
def WEIGHTS_time_growth : ℚ := 0.15

/-- Weight of the density-difference metric. -/
def WEIGHTS_density_diff : ℚ := 0.20

/-- `np.percentile(xs, q)` with the default linear interpolation between
order statistics, on exact rationals: sort ascending, take the value at
fractional position `(n-1)*q/100`. -/
def percentileLinear (q : ℚ) (xs : List ℚ) : ℚ :=
  let sorted := xs.mergeSort (fun a b => decide (a ≤ b))
  let n := sorted.length
  let pos : ℚ := ((n : ℚ) - 1) * q / 100
  let i : ℕ := pos.floor.toNat
  let lo := sorted.getD i 0
  let hi := sorted.getD (i + 1) lo
  lo + (pos - (i : ℚ)) * (hi - lo)

/-- `compute_percentile_95` (`evaluate_objective.py` lines 30-41): 95th
percentile of per-agent mean errors, `0.0` on empty input. -/
def compute_percentile_95 (agent_errors : List AgentErrorRec) : ℚ :=
  if agent_errors = [] then 0
  else percentileLinear 95 (agent_errors.map (·.meanError))

/-- `scipy.stats.linregress` slope of `ys` against the time indices
`0, 1, ..., n-1` (`time_indices = list(range(len(error_values)))`):
the centered ordinary-least-squares slope `Σ(x-x̄)(y-ȳ) / Σ(x-x̄)²`. -/
def olsSlope (ys : List ℚ) : ℚ :=
  let n : ℚ := (ys.length : ℚ)
  let xs : List ℚ := (List.range ys.length).map (fun i => (i : ℚ))
  let xbar := xs.sum / n
  let ybar := ys.sum / n
  let sxy := (List.zipWith (fun x y => (x - xbar) * (y - ybar)) xs ys).sum
  let sxx := (xs.map (fun x => (x - xbar) ^ 2)).sum
  sxy / sxx

/-- `compute_time_growth_penalty` (`evaluate_objective.py` lines 43-82):
skip agents with fewer than 4 samples, clamp each remaining agent's
regression slope at 0 from below, and average; `0.0` when nothing
qualifies. -/
def compute_time_growth_penalty (agent_errors : List AgentErrorRec) : ℚ :=
  if agent_errors = [] then 0
  else
    let growth_slopes :=
      (agent_errors.filter fun a => decide (4 ≤ (agentSampleErrors a).length)).map
        (fun a => max 0 (olsSlope (agentSampleErrors a)))
    if growth_slopes = [] then 0
    else growth_slopes.sum / (growth_slopes.length : ℚ)

/-- The spec's wording of the time-growth penalty: the average, over exactly
the agents having at least 4 time samples, of the non-negative part of the
ordinary-least-squares slope of error against time-index; `0.0` when no
agent qualifies. -/
def specTimeGrowthPenalty (agent_errors : List AgentErrorRec) : ℚ :=
  let qualifying :=
    agent_errors.filter fun a => decide (4 ≤ (agentSampleErrors a).length)
  if qualifying = [] then 0
  else (qualifying.map (fun a => max 0 (olsSlope (agentSampleErrors a)))).sum /
    (qualifying.length : ℚ)

/-- `compute_density_difference` (`evaluate_objective.py` lines 126-144):
`0.0` when the `densityMetrics` block is absent or null, else its
`densityRMSE` value. -/
def compute_density_difference (r : SimulationResult) : ℚ :=
  match r.densityMetrics with
  | none => 0
  | some densityRMSE => densityRMSE

/-- RMSE-of-means in `evaluate_objective` (lines 162-167): square root of
the mean of squared per-agent mean errors, `0.0` on empty input. -/
noncomputable def rmseOfMeans (agent_errors : List AgentErrorRec) : ℝ :=
  if agent_errors = [] then 0
  else Real.sqrt
    (((agent_errors.map (fun a => a.meanError ^ 2)).sum / (agent_errors.length : ℚ) : ℚ) : ℝ)

/-- The metrics dict built by `evaluate_objective`. -/
structure EvalMetrics where
  mean_error : ℝ
  percentile_95 : ℝ
  time_growth : ℝ
  density_diff : ℝ
  objective : ℝ
  weighted_mean : ℝ
  weighted_p95 : ℝ
  weighted_growth : ℝ
  weighted_density : ℝ

/-- `evaluate_objective` (`evaluate_objective.py` lines 146-198): direct
access `simulation_result['agentErrors']` raises `KeyError` on an absent
key; otherwise the objective is the fixed weighted sum of the four metrics.
The top-level average-error key is never read. -/
noncomputable def evaluate_objective (r : SimulationResult) :
    Except String (ℝ × EvalMetrics) :=
  match r.agentErrors with
  | none => .error "KeyError: agentErrors"
  | some agent_errors =>
    let mean_error : ℝ := rmseOfMeans agent_errors
    let percentile_95 : ℝ := ((compute_percentile_95 agent_errors : ℚ) : ℝ)
    let time_growth : ℝ := ((compute_time_growth_penalty agent_errors : ℚ) : ℝ)
    let density_diff : ℝ := ((compute_density_difference r : ℚ) : ℝ)
    let objective : ℝ :=
      (WEIGHTS_mean_error : ℝ) * mean_error +
      (WEIGHTS_percentile_95 : ℝ) * percentile_95 +
      (WEIGHTS_time_growth : ℝ) * time_growth +
      (WEIGHTS_density_diff : ℝ) * density_diff
    .ok (objective,
      ⟨mean_error, percentile_95, time_growth, density_diff, objective,
       (WEIGHTS_mean_error : ℝ) * mean_error,
       (WEIGHTS_percentile_95 : ℝ) * percentile_95,
       (WEIGHTS_time_growth : ℝ) * time_growth,
       (WEIGHTS_density_diff : ℝ) * density_diff⟩)

/-- C2: `evaluate_objective` returns the fixed weighted sum
`0.40*rmse + 0.25*percentile_95 + 0.15*time_growth + 0.20*density_diff`,
the weights sum to `1`, and a result without density data gets
`density_diff = 0` without an error. -/
theorem evaluate_objective_weighted_sum :
    (∀ ae avg dm,
      (evaluate_objective ⟨some ae, avg, dm⟩).map Prod.fst =
        Except.ok ((WEIGHTS_mean_error : ℝ) * rmseOfMeans ae +
          (WEIGHTS_percentile_95 : ℝ) * ((compute_percentile_95 ae : ℚ) : ℝ) +
          (WEIGHTS_time_growth : ℝ) * ((compute_time_growth_penalty ae : ℚ) : ℝ) +
          (WEIGHTS_density_diff : ℝ) *
            ((compute_density_difference ⟨some ae, avg, dm⟩ : ℚ) : ℝ))) ∧
    (WEIGHTS_mean_error = 0.40 ∧ WEIGHTS_percentile_95 = 0.25 ∧
      WEIGHTS_time_growth = 0.15 ∧ WEIGHTS_density_diff = 0.20) ∧
    WEIGHTS_mean_error + WEIGHTS_percentile_95 + WEIGHTS_time_growth +
      WEIGHTS_density_diff = 1 ∧
    (∀ ae avg, compute_density_difference ⟨some ae, avg, none⟩ = 0 ∧
      ∃ v, evaluate_objective ⟨some ae, avg, none⟩ = .ok v) := by
  refine ⟨fun ae avg dm => rfl, ⟨rfl, rfl, rfl, rfl⟩, ?_, ?_⟩
  · norm_num [WEIGHTS_mean_error, WEIGHTS_percentile_95, WEIGHTS_time_growth,
      WEIGHTS_density_diff]
  · exact fun ae avg => ⟨rfl, ⟨_, rfl⟩⟩

lemma sum_zipWith_sub_const (f : ℚ → ℚ) (c : ℚ) :
    ∀ (xs : List ℚ) (n : ℕ),
      (List.zipWith (fun x y => f x * (y - c)) xs (List.replicate n c)).sum = 0 := by
  intro xs
  induction xs with
  | nil => intro n; simp
  | cons x xs ih =>
    intro n
    cases n with
    | zero => simp
    | succ n =>
      simp only [List.replicate_succ, List.zipWith_cons_cons, List.sum_cons, ih n]
      ring

lemma olsSlope_replicate (n : ℕ) (c : ℚ) (hn : (n : ℚ) ≠ 0) :
    olsSlope (List.replicate n c) = 0 := by
  unfold olsSlope
  simp only [List.length_replicate, List.sum_replicate, nsmul_eq_mul]
  rw [mul_div_cancel_left₀ _ hn]
  rw [sum_zipWith_sub_const (fun x => x - _) c _ n, zero_div]

/-- C3: the time-growth penalty is the average of the clamped OLS slopes of
exactly the agents with at least 4 samples; agents with fewer samples are
excluded (not counted as 0), the result is 0 when no agent qualifies, and a
constant-error agent contributes exactly 0. -/
theorem time_growth_penalty_spec :
    (∀ ae, compute_time_growth_penalty ae = specTimeGrowthPenalty ae) ∧
    (∀ ae, ae.filter (fun a => decide (4 ≤ (agentSampleErrors a).length)) = [] →
      compute_time_growth_penalty ae = 0) ∧
    (∀ (n : ℕ) (c : ℚ), 4 ≤ n → max 0 (olsSlope (List.replicate n c)) = 0) := by
  refine ⟨?_, ?_, ?_⟩
  · intro ae
    unfold compute_time_growth_penalty specTimeGrowthPenalty
    by_cases hae : ae = []
    · subst hae; simp
    · rw [if_neg hae]
      by_cases hf : ae.filter (fun a => decide (4 ≤ (agentSampleErrors a).length)) = []
      · simp [hf]
      · rw [if_neg hf, if_neg (by simpa using hf)]
        simp [List.length_map]
  · intro ae hf
    unfold compute_time_growth_penalty
    by_cases hae : ae = []
    · simp [hae]
    · rw [if_neg hae]
      simp [hf]
  · intro n c hn
    rw [olsSlope_replicate n c (Nat.cast_ne_zero.mpr (by omega))]
    exact max_self 0

/-- Witness for C3 at a single agent with 4 constant samples and a single
agent with too few samples. -/
theorem time_growth_penalty_spec_witness :
    compute_time_growth_penalty [⟨1, some [2, 2, 2, 2]⟩] =
      specTimeGrowthPenalty [⟨1, some [2, 2, 2, 2]⟩] ∧
    compute_time_growth_penalty [⟨1, none⟩] = 0 ∧
    (4 ≤ 4 ∧ max 0 (olsSlope (List.replicate 4 (2 : ℚ))) = 0) :=
  ⟨time_growth_penalty_spec.1 [⟨1, some [2, 2, 2, 2]⟩],
   time_growth_penalty_spec.2.1 [⟨1, none⟩] (by rfl),
   ⟨by norm_num, time_growth_penalty_spec.2.2 4 2 (by norm_num)⟩⟩

/-- Counterexample to C7's second half: a simulation result with
`agentErrors` present (here empty) but with no top-level average-error key
evaluates successfully — the scorer never reads that key, so its absence
does not make `evaluate_objective` fail. -/
theorem evaluate_objective_ok_without_average_error :
    (evaluate_objective ⟨some [], none, none⟩).map Prod.fst = Except.ok 0 := by
  unfold evaluate_objective
  simp only [Except.map]
  congr 1
  simp [rmseOfMeans, compute_percentile_95, compute_time_growth_penalty,
    compute_density_difference]

/-- C7 (amended): `evaluate_objective` fails (with a `KeyError`, the code's
concrete form of the spec's `DataError`) exactly when the `agentErrors` key
is absent; the top-level average-error key is never read, so its absence is
not an error, and absence of density data is not an error either. -/
theorem evaluate_objective_agent_errors_required :
    (∀ avg dm, evaluate_objective ⟨none, avg, dm⟩ =
      .error "KeyError: agentErrors") ∧
    (∀ ae avg dm, ∃ v, evaluate_objective ⟨some ae, avg, dm⟩ = .ok v) :=
  ⟨fun _ _ => rfl, fun _ _ _ => ⟨_, rfl⟩⟩

/-! ## Optimization history (`core/history_tracker.py`) -/

/-- One evaluation record, with the fields `get_best` can observe. -/
structure HistoryEntry where
  iteration : ℕ
  generation : ℕ
  objective : ℚ
  params : List ℚ
deriving DecidableEq

/-- The tracker state: the in-memory `self.history` list, the
`start_iteration` offset, and the rows sitting in the CSV file (header
aside), which the class writes but never reads back. -/
structure OptimizationHistory where
  history : List HistoryEntry
  startIteration : ℕ
  fileRows : List HistoryEntry
deriving DecidableEq

/-- `OptimizationHistory.__init__` (`history_tracker.py` lines 32-54): in
append mode with an existing file, the file is kept and only a message is
printed — its rows are never loaded; otherwise the file is truncated to a
fresh header.  `self.history` starts empty in both modes. -/
def OptimizationHistory.init (existingFileRows : Option (List HistoryEntry))
    (append : Bool) (start_iteration : ℕ) : OptimizationHistory :=
  ⟨[], start_iteration,
   if append && existingFileRows.isSome then existingFileRows.getD [] else []⟩

/-- `OptimizationHistory.add_evaluation` (lines 56-96): appends the entry,
with `actual_iteration = start_iteration + iteration`, to both the
in-memory list and the CSV file. -/
def OptimizationHistory.add_evaluation (h : OptimizationHistory)
    (iteration generation : ℕ) (objective : ℚ) (params : List ℚ) :
    OptimizationHistory :=
  let e : HistoryEntry :=
    ⟨h.startIteration + iteration, generation, objective, params⟩
  ⟨h.history ++ [e], h.startIteration, h.fileRows ++ [e]⟩

/-- Python's `min(entries, key=lambda x: x['objective'])`: the first entry
attaining the minimal objective (later entries replace the accumulator only
on strict improvement). -/
def pyMinByObjective (l : List HistoryEntry) : Option HistoryEntry :=
  match l with
  | [] => none
  | x :: xs =>
    some (xs.foldl (fun b e => if e.objective < b.objective then e else b) x)

/-- `OptimizationHistory.get_best` (lines 98-110): `None` on an empty
in-memory history, else `min(self.history, key=objective)`. -/
def OptimizationHistory.get_best (h : OptimizationHistory) :
    Option HistoryEntry :=
  pyMinByObjective h.history

lemma foldl_pyMin_spec :
    ∀ (xs : List HistoryEntry) (b : HistoryEntry),
      ∃ pre post,
        b :: xs = pre ++
          (xs.foldl (fun b e => if e.objective < b.objective then e else b) b)
            :: post ∧
        (∀ e ∈ pre,
          (xs.foldl (fun b e => if e.objective < b.objective then e else b)
            b).objective < e.objective) ∧
        (∀ e ∈ post,
          (xs.foldl (fun b e => if e.objective < b.objective then e else b)
            b).objective ≤ e.objective) := by
  intro xs
  induction xs with
  | nil => exact fun b => ⟨[], [], by simp⟩
  | cons x xs ih =>
    intro b
    simp only [List.foldl_cons]
    by_cases hx : x.objective < b.objective
    · rw [if_pos hx]
      rcases ih x with ⟨pre, post, hsplit, hpre, hpost⟩
      generalize hm : xs.foldl
        (fun b e => if e.objective < b.objective then e else b) x = m
          at hsplit hpre hpost ⊢
      cases pre with
      | nil =>
        obtain ⟨hmx, hpost'⟩ := (List.cons.injEq _ _ _ _).mp hsplit
        refine ⟨[b], post, ?_, ?_, hpost⟩
        · rw [List.singleton_append]
          exact congrArg (List.cons b) hsplit
        · intro e he
          rcases List.mem_singleton.mp he with rfl
          rw [← hmx]
          exact hx
      | cons p pre =>
        obtain ⟨hpx, hxs⟩ := (List.cons.injEq _ _ _ _).mp hsplit
        refine ⟨b :: p :: pre, post, ?_, ?_, hpost⟩
        · exact congrArg (List.cons b) hsplit
        · intro e he
          rcases List.mem_cons.mp he with rfl | hin
          · exact lt_trans (lt_of_lt_of_eq (hpre p (by simp)) (by rw [hpx])) hx
          · exact hpre e hin
    · rw [if_neg hx]
      rcases ih b with ⟨pre, post, hsplit, hpre, hpost⟩
      generalize hm : xs.foldl
        (fun b e => if e.objective < b.objective then e else b) b = m
          at hsplit hpre hpost ⊢
      cases pre with
      | nil =>
        obtain ⟨hmb, hxs⟩ := (List.cons.injEq _ _ _ _).mp hsplit
        refine ⟨[], x :: post, ?_, by simp, ?_⟩
        · rw [List.nil_append]
          rw [← hxs, ← hmb]
        · intro e he
          rcases List.mem_cons.mp he with rfl | hin
          · rw [← hmb]; exact le_of_not_lt hx
          · exact hpost e hin
      | cons p pre =>
        obtain ⟨hpb, hxs⟩ := (List.cons.injEq _ _ _ _).mp hsplit
        refine ⟨b :: x :: pre, post, ?_, ?_, hpost⟩
        · rw [List.cons_append, List.cons_append, hxs]
          rfl
        · intro e he
          rcases List.mem_cons.mp he with rfl | hin
          · exact lt_of_lt_of_eq (hpre p (by simp)) (by rw [hpb])
          · rcases List.mem_cons.mp hin with rfl | hin'
            · exact lt_of_lt_of_le
                (lt_of_lt_of_eq (hpre p (by simp)) (by rw [hpb]))
                (le_of_not_lt hx)
            · exact hpre e (by simp [hin'])

/-- C4 (amended): `get_best` is `none` exactly on an empty in-session
history; otherwise it returns the first-appended record among those of
minimal objective over the records added in this session — records already
present in a log file opened in append mode are never consulted. -/
theorem get_best_first_min_of_session (h : OptimizationHistory) :
    (h.history = [] → h.get_best = none) ∧
    (∀ b, h.get_best = some b →
      b ∈ h.history ∧ (∀ e ∈ h.history, b.objective ≤ e.objective) ∧
      ∃ pre post, h.history = pre ++ b :: post ∧
        ∀ e ∈ pre, b.objective < e.objective) ∧
    (∀ existingRows start_iteration,
      (OptimizationHistory.init (some existingRows) true start_iteration).history
        = []) := by
  refine ⟨?_, ?_, fun _ _ => rfl⟩
  · intro hh
    unfold OptimizationHistory.get_best pyMinByObjective
    rw [hh]
  · intro b hb
    unfold OptimizationHistory.get_best pyMinByObjective at hb
    cases hh : h.history with
    | nil => rw [hh] at hb; exact absurd hb (by simp)
    | cons x xs =>
      rw [hh] at hb
      have hbval : xs.foldl
          (fun b e => if e.objective < b.objective then e else b) x = b := by
        simpa using hb
      rcases foldl_pyMin_spec xs x with ⟨pre, post, hsplit, hpre, hpost⟩
      rw [hbval] at hsplit hpre hpost
      refine ⟨?_, ?_, pre, post, hsplit, hpre⟩
      · rw [hsplit]
        exact List.mem_append.mpr (Or.inr (by simp))
      · intro e he
        rw [hsplit] at he
        rcases List.mem_append.mp he with hin | hin
        · exact le_of_lt (hpre e hin)
        · rcases List.mem_cons.mp hin with rfl | hin'
          · exact le_refl _
          · exact hpost e hin'

/-- A session that adds records with objectives 5, 3, 4 (spec's test
fixture for best-so-far). -/
def sessionTracker : OptimizationHistory :=
  (((OptimizationHistory.init none false 0).add_evaluation 1 1 5
      []).add_evaluation 2 1 3 []).add_evaluation 3 1 4 []

/-- Witness for C4's amended statement on the 5/3/4 fixture, plus the
empty-history case. -/
theorem get_best_first_min_of_session_witness :
    ((⟨2, 1, 3, []⟩ : HistoryEntry) ∈ sessionTracker.history ∧
      (∀ e ∈ sessionTracker.history, (3 : ℚ) ≤ e.objective) ∧
      ∃ pre post, sessionTracker.history =
        pre ++ (⟨2, 1, 3, []⟩ : HistoryEntry) :: post ∧
        ∀ e ∈ pre, (3 : ℚ) < e.objective) ∧
    (OptimizationHistory.init none false 0).get_best = none :=
  ⟨(get_best_first_min_of_session sessionTracker).2.1 ⟨2, 1, 3, []⟩ (by rfl),
   (get_best_first_min_of_session (OptimizationHistory.init none false 0)).1 rfl⟩

/-- Counterexample to C4: a tracker opened in append mode over a log file
already holding a record with objective 1 and then given one new record
with objective 5 reports the objective-5 record as best — the lower
objective-1 record sitting in the log file is ignored. -/
theorem get_best_ignores_preexisting_log_rows :
    ((OptimizationHistory.init (some [⟨1, 1, 1, []⟩]) true 0).add_evaluation
        2 1 5 []).get_best = some ⟨2, 1, 5, []⟩ ∧
    (⟨1, 1, 1, []⟩ : HistoryEntry) ∈
      ((OptimizationHistory.init (some [⟨1, 1, 1, []⟩]) true 0).add_evaluation
        2 1 5 []).fileRows ∧
    (1 : ℚ) < 5 := by
  refine ⟨rfl, by simp [OptimizationHistory.init,
    OptimizationHistory.add_evaluation], by norm_num⟩

/-! ## Optimizer result record and seed handling
(`optimizer/base_optimizer.py`, `optimizer/scipy_de_optimizer.py`,
`run_optimization.py`) -/

/-- The fields of the `OptimizerResult` dataclass
(`base_optimizer.py` lines 14-37), in declaration order. -/
def optimizerResultFields : List String :=
  ["success", "best_params", "best_objective", "n_evaluations", "message",
   "algorithm_name"]

/-- The keyword arguments `ScipyDEOptimizer.optimize` passes to the
`OptimizerResult` constructor on return (`scipy_de_optimizer.py` lines
239-247). -/
def scipyOptimizeReturnKwargs : List String :=
  ["success", "best_params", "best_objective", "n_evaluations", "message",
   "algorithm_name", "seed"]

/-- Python semantics of calling a dataclass constructor with keyword
arguments only: the call succeeds iff every keyword names a declared field
and every field receives a value (this dataclass has no defaults); an
unexpected keyword raises `TypeError`. -/
def dataclassCallAccepted (fields kwargs : List String) : Bool :=
  kwargs.all (fun k => fields.contains k) &&
    fields.all (fun f => kwargs.contains f)

/-- Seed resolution in `ScipyDEOptimizer.__init__` (lines 101-107): a
user-supplied seed is kept; with `seed=None` the seed is drawn by
`random.randint(0, 2**31 - 1)`, modelled by its contract as an arbitrary
RNG draw reduced into the inclusive range `[0, 2^31 - 1]`. -/
def resolveSeed (seedArg : Option ℕ) (draw : ℕ) : ℕ :=
  match seedArg with
  | some s => s
  | none => draw % 2 ^ 31

/-- C5: the auto-generated seed is an integer in `[0, 2^31 - 1]`, but the
`OptimizerResult` dataclass has no `seed` field while `optimize()` passes a
`seed` keyword on return, so the constructor call raises `TypeError`
instead of producing a result record carrying the seed. -/
theorem optimizer_result_seed_field_missing :
    (∀ draw, resolveSeed none draw ≤ 2 ^ 31 - 1) ∧
    "seed" ∈ scipyOptimizeReturnKwargs ∧
    "seed" ∉ optimizerResultFields ∧
    dataclassCallAccepted optimizerResultFields scipyOptimizeReturnKwargs
      = false := by
  refine ⟨?_, by decide, by decide, by decide⟩
  intro draw
  show draw % 2 ^ 31 ≤ 2 ^ 31 - 1
  have : draw % 2 ^ 31 < 2 ^ 31 := Nat.mod_lt _ (by norm_num)
  omega

/-! ## Objective-function wrapper state (`core/objective_function.py`) -/

/-- The methods defined on `ObjectiveFunction`
(`core/objective_function.py` lines 19-171). -/
def objectiveFunctionMethods : List String :=
  ["__init__", "set_generation", "__call__", "get_best_evaluation",
   "get_evaluation_count", "reset"]

/-- The parameters accepted by `ScipyDEOptimizer.__init__`
(`scipy_de_optimizer.py` lines 62-75). -/
def scipyDEInitKeywords : List String :=
  ["self", "bounds", "objective_function", "max_evaluations", "seed",
   "popsize", "generations", "strategy", "mutation", "recombination",
   "atol", "tol"]

/-- The methods `run_optimization.py` (lines 427-428) invokes on the
objective function when resuming from a checkpoint. -/
def resumeMethodCallsOnObjective : List String :=
  ["set_initial_best", "set_eval_counter"]

/-- The extra keyword arguments `run_optimization.py` (lines 93-94) passes
to `ScipyDEOptimizer` when resuming. -/
def resumeKeywordsPassedToOptimizer : List String :=
  ["resume_eval_counter", "resume_generation"]

/-- The mutable counters `ObjectiveFunction.__init__` creates (lines
55-57): the evaluation counter and generation always start at zero and the
constructor takes no argument that could pre-seed them. -/
def ObjectiveFunction.initState : ℕ × ℕ := (0, 0)

/-- C6 (code state): no pre-seeding support exists — the resume path calls
methods `ObjectiveFunction` does not define and passes keyword arguments
`ScipyDEOptimizer.__init__` does not accept, and the wrapper's counters
start at zero unconditionally. -/
theorem objective_function_resume_preseed_missing :
    (∀ m ∈ resumeMethodCallsOnObjective, m ∉ objectiveFunctionMethods) ∧
    (∀ k ∈ resumeKeywordsPassedToOptimizer, k ∉ scipyDEInitKeywords) ∧
    ObjectiveFunction.initState = (0, 0) := by
  exact ⟨by decide, by decide, rfl⟩

/-- Witness for C6 at the concrete method and keyword names used by the
resume path. -/
theorem objective_function_resume_preseed_missing_witness :
    ("set_initial_best" ∈ resumeMethodCallsOnObjective ∧
      "set_initial_best" ∉ objectiveFunctionMethods) ∧
    ("resume_eval_counter" ∈ resumeKeywordsPassedToOptimizer ∧
      "resume_eval_counter" ∉ scipyDEInitKeywords) :=
  ⟨⟨by decide,
    objective_function_resume_preseed_missing.1 "set_initial_best" (by decide)⟩,
   ⟨by decide,
    objective_function_resume_preseed_missing.2.1 "resume_eval_counter"
      (by decide)⟩⟩

/-! ## Result polling (`core/unity_simulator.py`) -/

/-- One observation of the result file by a `stat`/`exists`/`open` call:
either the file is missing (or locked, so the call raises), or it is
present with a size and with content that does or does not parse as JSON. -/
inductive FileObs where
  | gone
  | present (size : ℕ) (validJson : Bool)
deriving DecidableEq

/-- The size-comparison loop of `_is_file_stable` (lines 367-376) followed
by the JSON parse (lines 379-387), over an abstract trace
`obs : ℕ → FileObs` in which every file-system access consumes one index.
With `k` comparisons left, a raising stat or a size change returns `False`;
after the window the file is opened and its content must parse.  Returns
the result and the next free index. -/
def stabilityLoop (obs : ℕ → FileObs) : ℕ → ℕ → ℕ → Bool × ℕ
  | t, 0, _ =>
    match obs t with
    | .gone => (false, t + 1)
    | .present _ valid => (valid, t + 1)
  | t, k + 1, prevSize =>
    match obs t with
    | .gone => (false, t + 1)
    | .present cur _ =>
      if cur = prevSize then stabilityLoop obs (t + 1) k cur
      else (false, t + 1)

/-- `_is_file_stable` (lines 351-392): take the initial size, then require
`stability_checks` consecutive unchanged sizes, then a successful JSON
parse; any access error yields `False` via the outer `except`. -/
def is_file_stable (obs : ℕ → FileObs) (t : ℕ) (stability_checks : ℕ) :
    Bool × ℕ :=
  match obs t with
  | .gone => (false, t + 1)
  | .present prevSize _ => stabilityLoop obs (t + 1) stability_checks prevSize

/-- Failure of `_wait_for_result`: the timeout elapsed.  (File-trigger mode
is modelled: `process` is `None`, so the crash branch is dead.) -/
inductive WaitError where
  | timeout
deriving DecidableEq

/-- `_wait_for_result` (lines 293-349) in file-trigger mode: each iteration
checks existence, then stability with the default `stability_checks = 2`;
on success it returns, otherwise it sleeps and retries until the timeout
(modelled as the number of polling iterations the timeout allows) is
exhausted. -/
def wait_for_result (obs : ℕ → FileObs) : ℕ → ℕ → Except WaitError ℕ
  | _, 0 => .error .timeout
  | t, fuel + 1 =>
    match obs t with
    | .present _ _ =>
      let r := is_file_stable obs (t + 1) 2
      if r.1 then .ok r.2
      else wait_for_result obs r.2 fuel
    | .gone => wait_for_result obs (t + 1) fuel

/-- C8: a result file is accepted only when it exists with size unchanged
across the two successive checks and JSON-parsable content; a size change
or a failed parse rejects that poll, and a rejected poll is retried on the
next iteration (not terminal) until the fuel (timeout) runs out. -/
theorem result_polling_stability (obs : ℕ → FileObs) :
    (∀ t s0 s1 v0 v1, obs t = .present s0 v0 → obs (t + 1) = .present s1 v1 →
      s0 ≠ s1 → (is_file_stable obs t 2).1 = false) ∧
    (∀ t s v0 v1 v2 sr, obs t = .present s v0 → obs (t + 1) = .present s v1 →
      obs (t + 2) = .present s v2 → obs (t + 3) = .present sr false →
      (is_file_stable obs t 2).1 = false) ∧
    (∀ t r, is_file_stable obs t 2 = (true, r) →
      ∃ s v0 v1 v2 sr, obs t = .present s v0 ∧ obs (t + 1) = .present s v1 ∧
        obs (t + 2) = .present s v2 ∧ obs (t + 3) = .present sr true ∧
        r = t + 4) ∧
    (∀ t fuel s v, obs t = .present s v →
      (is_file_stable obs (t + 1) 2).1 = false →
      wait_for_result obs t (fuel + 1) =
        wait_for_result obs (is_file_stable obs (t + 1) 2).2 fuel) ∧
    (∀ t fuel s v, obs t = .present s v →
      (is_file_stable obs (t + 1) 2).1 = true →
      wait_for_result obs t (fuel + 1) =
        .ok (is_file_stable obs (t + 1) 2).2) ∧
    (∀ t, wait_for_result obs t 0 = .error .timeout) := by
  refine ⟨?_, ?_, ?_, ?_, ?_, fun t => rfl⟩
  · intro t s0 s1 v0 v1 h0 h1 hne
    simp only [is_file_stable, stabilityLoop, h0, h1]
    rw [if_neg (fun h => hne h.symm)]
  · intro t s v0 v1 v2 sr h0 h1 h2 h3
    have e2 : t + 1 + 1 = t + 2 := by omega
    have e3 : t + 1 + 1 + 1 = t + 3 := by omega
    simp only [is_file_stable, stabilityLoop, h0, h1, e2, e3, h2, h3,
      if_pos rfl]
    simp
  · intro t r h
    unfold is_file_stable at h
    cases h0 : obs t with
    | gone => rw [h0] at h; simp at h
    | present s0 v0 =>
      rw [h0] at h
      simp only [stabilityLoop] at h
      cases h1 : obs (t + 1) with
      | gone => rw [h1] at h; simp at h
      | present s1 v1 =>
        rw [h1] at h
        simp only [] at h
        by_cases hs1 : s1 = s0
        · rw [if_pos hs1] at h
          subst hs1
          cases h2 : obs (t + 1 + 1) with
          | gone => rw [h2] at h; simp at h
          | present s2 v2 =>
            rw [h2] at h
            simp only [] at h
            by_cases hs2 : s2 = s1
            · rw [if_pos hs2] at h
              subst hs2
              cases h3 : obs (t + 1 + 1 + 1) with
              | gone => rw [h3] at h; simp at h
              | present sr vr =>
                rw [h3] at h
                simp only [Prod.mk.injEq] at h
                refine ⟨_, v0, v1, v2, sr, rfl, rfl, ?_, ?_, ?_⟩
                · rw [← h2]
                · rw [← h.1, ← h3]
                · have := h.2; omega
            · rw [if_neg hs2] at h; simp at h
        · rw [if_neg hs1] at h; simp at h
  · intro t fuel s v h0 hfail
    simp only [wait_for_result, h0]
    rw [if_neg (by rw [hfail]; exact Bool.false_ne_true)]
  · intro t fuel s v h0 hok
    simp only [wait_for_result, h0]
    rw [if_pos hok]

/-- A concrete file trace: size jumps from 5 to 7 at index 1, content stays
JSON-invalid through index 4, and the file is stable and valid from index
5 on. -/
def obsW : ℕ → FileObs := fun n =>
  if n = 0 then .present 5 true
  else if n ≤ 4 then .present 7 false
  else .present 7 true

/-- Witness for C8 on the trace `obsW`: the size-change poll and the
invalid-JSON poll are both rejected, a rejected poll retries, acceptance
happens once the file is stable and valid, and empty fuel times out. -/
theorem result_polling_stability_witness :
    (is_file_stable obsW 0 2).1 = false ∧
    (is_file_stable obsW 1 2).1 = false ∧
    (∃ s v0 v1 v2 sr, obsW 5 = .present s v0 ∧ obsW 6 = .present s v1 ∧
      obsW 7 = .present s v2 ∧ obsW 8 = .present sr true ∧ (9 : ℕ) = 5 + 4) ∧
    wait_for_result obsW 0 2 = wait_for_result obsW 5 1 ∧
    wait_for_result obsW 4 1 = .ok 9 ∧
    wait_for_result obsW 0 0 = .error .timeout :=
  ⟨(result_polling_stability obsW).1 0 5 7 true false rfl rfl (by decide),
   (result_polling_stability obsW).2.1 1 7 false false false 7 rfl rfl rfl rfl,
   (result_polling_stability obsW).2.2.1 5 9 rfl,
   (result_polling_stability obsW).2.2.2.1 0 1 5 true rfl rfl,
   (result_polling_stability obsW).2.2.2.2.1 4 0 7 false rfl rfl,
   (result_polling_stability obsW).2.2.2.2.2 0⟩

/-! ## Evaluation-budget enforcement
(`optimizer/scipy_de_optimizer.py`, `ScipyDEOptimizer.optimize`) -/

/-- The closure state of `optimize` (lines 150-153): `eval_counter`,
`current_generation`, `termination_flag`, plus the number of times the
underlying expensive objective has actually been invoked (the quantity the
budget claim is about). -/
structure DEWrapperState where
  counter : ℕ
  currentGeneration : ℕ
  termination : Bool
  realEvals : ℕ
deriving DecidableEq

/-- State effect of one `objective_wrapper` call (lines 156-176) with
budget `M` and population size `S = popsize × n_params`: increment the
counter, recompute the 1-indexed generation `(c-1) // S + 1`, and either
trip the termination flag without touching the objective (counter beyond
the budget) or invoke the underlying objective. -/
def objective_wrapper_step (M S : ℕ) (s : DEWrapperState) : DEWrapperState :=
  let c := s.counter + 1
  let g := (c - 1) / S + 1
  if M < c then ⟨c, g, true, s.realEvals⟩
  else ⟨c, g, s.termination, s.realEvals + 1⟩

/-- Value returned by the same `objective_wrapper` call: the sentinel
penalty `1e10` beyond the budget, else the underlying objective's value
(`f` maps the call number to that value). -/
def objective_wrapper_value (M : ℕ) (f : ℕ → ℚ) (s : DEWrapperState) : ℚ :=
  if M < s.counter + 1 then 10 ^ 10 else f (s.counter + 1)

/-- The per-generation `callback` (lines 179-194): request termination iff
the evaluation counter has reached `max_evaluations`. -/
def de_callback (M : ℕ) (s : DEWrapperState) : Bool :=
  decide (M ≤ s.counter)

/-- `n` consecutive `objective_wrapper` calls (one population's worth of
energies under `updating='deferred'`, `workers=1`). -/
def evalBatch (M S : ℕ) : DEWrapperState → ℕ → DEWrapperState
  | s, 0 => s
  | s, n + 1 => evalBatch M S (objective_wrapper_step M S s) n

/-- Modelled from the spec: `scipy.optimize.differential_evolution` is an
external trusted primitive, so its generational loop is embedded from its
documented single-worker deferred-updating behaviour — evaluate one full
trial population of `S` candidates per iteration, then invoke the
per-generation callback and stop when it returns `True`, up to the
iteration cap; the library's own convergence criterion is taken as never
firing (the claim's scenario in which the algorithm would naturally
continue). -/
def deGenerationLoop (M S : ℕ) : ℕ → DEWrapperState → DEWrapperState
  | 0, s => s
  | g + 1, s =>
    let s' := evalBatch M S s S
    if de_callback M s' then s' else deGenerationLoop M S g s'

/-- The iteration cap handed to scipy: `maxiter * 10` (line 202), where
`maxiter` is the `generations` argument or `max_evaluations // (popsize ×
n_params)` (lines 109-118). -/
def scipyMaxiter (M S : ℕ) (generations : Option ℕ) : ℕ :=
  (match generations with
   | some g => g
   | none => M / S) * 10

/-- `ScipyDEOptimizer.optimize` as far as evaluation accounting goes:
scipy first evaluates the initial population (`S` calls), then runs the
generation loop under the callback. -/
def run_optimize (popsize n_params M : ℕ) (generations : Option ℕ) :
    DEWrapperState :=
  let S := popsize * n_params
  deGenerationLoop M S (scipyMaxiter M S generations)
    (evalBatch M S ⟨0, 0, false, 0⟩ S)

lemma objective_wrapper_step_spec (M S : ℕ) (s : DEWrapperState)
    (h : s.realEvals = min s.counter M) :
    (objective_wrapper_step M S s).counter = s.counter + 1 ∧
    (objective_wrapper_step M S s).realEvals = min (s.counter + 1) M := by
  unfold objective_wrapper_step
  by_cases hc : M < s.counter + 1
  · rw [if_pos hc]
    exact ⟨rfl, by show s.realEvals = _; omega⟩
  · rw [if_neg hc]
    exact ⟨rfl, by show s.realEvals + 1 = _; omega⟩

lemma evalBatch_spec (M S : ℕ) :
    ∀ (n : ℕ) (s : DEWrapperState), s.realEvals = min s.counter M →
      (evalBatch M S s n).counter = s.counter + n ∧
      (evalBatch M S s n).realEvals = min (s.counter + n) M := by
  intro n
  induction n with
  | zero => intro s h; exact ⟨rfl, by simpa using h⟩
  | succ n ih =>
    intro s h
    obtain ⟨hc, hr⟩ := objective_wrapper_step_spec M S s h
    obtain ⟨hc', hr'⟩ := ih (objective_wrapper_step M S s) (by rw [hr, hc])
    show (evalBatch M S (objective_wrapper_step M S s) n).counter =
        s.counter + (n + 1) ∧
      (evalBatch M S (objective_wrapper_step M S s) n).realEvals =
        min (s.counter + (n + 1)) M
    refine ⟨by rw [hc', hc]; omega, by rw [hr', hc]; congr 1; omega⟩

lemma deGenerationLoop_spec (M S : ℕ) :
    ∀ (g : ℕ) (s : DEWrapperState), s.realEvals = min s.counter M →
      (deGenerationLoop M S g s).realEvals =
        min (deGenerationLoop M S g s).counter M ∧
      min M (s.counter + S * g) ≤ (deGenerationLoop M S g s).counter := by
  intro g
  induction g with
  | zero => intro s h; exact ⟨h, by show min M (s.counter + S * 0) ≤ s.counter; omega⟩
  | succ g ih =>
    intro s h
    obtain ⟨hc, hr⟩ := evalBatch_spec M S S s h
    have hunf : deGenerationLoop M S (g + 1) s =
        if de_callback M (evalBatch M S s S) then evalBatch M S s S
        else deGenerationLoop M S g (evalBatch M S s S) := rfl
    rw [hunf]
    by_cases hcb : de_callback M (evalBatch M S s S) = true
    · rw [if_pos hcb]
      unfold de_callback at hcb
      rw [decide_eq_true_iff] at hcb
      exact ⟨by rw [hr, hc], by rw [hc]; omega⟩
    · rw [if_neg hcb]
      obtain ⟨hr', hcnt'⟩ := ih (evalBatch M S s S) (by rw [hr, hc])
      refine ⟨hr', le_trans ?_ hcnt'⟩
      rw [hc]
      have : S * (g + 1) = S * g + S := by ring
      omega

lemma run_optimize_budget (popsize n_params M : ℕ) (gens : Option ℕ)
    (_hS1 : 1 ≤ popsize * n_params)
    (hcap : M ≤ popsize * n_params +
      popsize * n_params * scipyMaxiter M (popsize * n_params) gens) :
    (run_optimize popsize n_params M gens).realEvals = M := by
  set S := popsize * n_params with hS
  obtain ⟨hc0, hr0⟩ := evalBatch_spec M S S ⟨0, 0, false, 0⟩ (by simp)
  have hc0' : (evalBatch M S ⟨0, 0, false, 0⟩ S).counter = S := by
    simpa using hc0
  have hr0' : (evalBatch M S ⟨0, 0, false, 0⟩ S).realEvals = min S M := by
    simpa using hr0
  have h0 : (evalBatch M S ⟨0, 0, false, 0⟩ S).realEvals =
      min (evalBatch M S ⟨0, 0, false, 0⟩ S).counter M := by
    rw [hr0', hc0']
  obtain ⟨hrL, hcL⟩ := deGenerationLoop_spec M S (scipyMaxiter M S gens)
    (evalBatch M S ⟨0, 0, false, 0⟩ S) h0
  show (deGenerationLoop M S (scipyMaxiter M S gens)
    (evalBatch M S ⟨0, 0, false, 0⟩ S)).realEvals = M
  rw [hrL]
  rw [hc0'] at hcL
  omega

/-- C1: a wrapper call beyond the budget returns the sentinel `1e10`
without invoking the underlying objective and trips the termination flag; a
call within the budget performs one real evaluation; the per-generation
callback signals termination exactly when the counter has reached the
budget; and a full run performs exactly `max_evaluations` real evaluations
whenever the inflated scipy iteration cap can cover the budget — in
particular always when generations are auto-derived from
`max_evaluations`. -/
theorem exact_budget_enforcement :
    (∀ M S f (s : DEWrapperState), M < s.counter + 1 →
      objective_wrapper_value M f s = 10 ^ 10 ∧
      (objective_wrapper_step M S s).realEvals = s.realEvals ∧
      (objective_wrapper_step M S s).termination = true) ∧
    (∀ M S f (s : DEWrapperState), s.counter + 1 ≤ M →
      objective_wrapper_value M f s = f (s.counter + 1) ∧
      (objective_wrapper_step M S s).realEvals = s.realEvals + 1) ∧
    (∀ M (s : DEWrapperState), de_callback M s = true ↔ M ≤ s.counter) ∧
    (∀ popsize n_params M gens, 1 ≤ popsize * n_params →
      M ≤ popsize * n_params +
        popsize * n_params * scipyMaxiter M (popsize * n_params) gens →
      (run_optimize popsize n_params M gens).realEvals = M) ∧
    (∀ popsize n_params M, 1 ≤ popsize → 1 ≤ n_params →
      (run_optimize popsize n_params M none).realEvals = M) := by
  refine ⟨?_, ?_, ?_, run_optimize_budget, ?_⟩
  · intro M S f s hc
    refine ⟨?_, ?_, ?_⟩
    · unfold objective_wrapper_value; rw [if_pos hc]
    · unfold objective_wrapper_step; rw [if_pos hc]
    · unfold objective_wrapper_step; rw [if_pos hc]
  · intro M S f s hc
    have hnc : ¬ M < s.counter + 1 := by omega
    refine ⟨?_, ?_⟩
    · unfold objective_wrapper_value; rw [if_neg hnc]
    · unfold objective_wrapper_step; rw [if_neg hnc]
  · intro M s
    unfold de_callback
    exact decide_eq_true_iff
  · intro popsize n_params M hp hd
    have hS1 : 1 ≤ popsize * n_params :=
      le_trans (by omega) (Nat.mul_le_mul hp hd)
    apply run_optimize_budget popsize n_params M none hS1
    set S := popsize * n_params with hS
    have hmod : S * (M / S) + M % S = M := Nat.div_add_mod M S
    have hmlt : M % S < S := Nat.mod_lt M (by omega)
    have hsm : S * scipyMaxiter M S none = S * (M / S) * 10 := by
      show S * ((M / S) * 10) = _
      ring
    rw [hsm]
    omega

/-- Witness for C1 at the spec's boundary fixture
`max_evaluations = 36`, `popsize = 2`, `n_params = 18`, together with a
beyond-budget wrapper call at counter 36. -/
theorem exact_budget_enforcement_witness :
    (36 < 36 + 1 ∧
      objective_wrapper_value 36 (fun _ => 0) ⟨36, 1, false, 36⟩ = 10 ^ 10 ∧
      (objective_wrapper_step 36 36 ⟨36, 1, false, 36⟩).realEvals = 36 ∧
      (objective_wrapper_step 36 36 ⟨36, 1, false, 36⟩).termination = true) ∧
    (0 + 1 ≤ 36 ∧
      (objective_wrapper_step 36 36 ⟨0, 0, false, 0⟩).realEvals = 0 + 1) ∧
    (1 ≤ 2 * 18 ∧
      36 ≤ 2 * 18 + 2 * 18 * scipyMaxiter 36 (2 * 18) (some 1) ∧
      (run_optimize 2 18 36 (some 1)).realEvals = 36) ∧
    (1 ≤ 2 ∧ 1 ≤ 18 ∧ (run_optimize 2 18 36 none).realEvals = 36) :=
  ⟨⟨by norm_num,
    exact_budget_enforcement.1 36 36 (fun _ => 0) ⟨36, 1, false, 36⟩ (by norm_num)⟩,
   ⟨by norm_num,
    (exact_budget_enforcement.2.1 36 36 (fun _ => 0) ⟨0, 0, false, 0⟩
      (by norm_num)).2⟩,
   ⟨by norm_num, by norm_num [scipyMaxiter],
    exact_budget_enforcement.2.2.2.1 2 18 36 (some 1) (by norm_num)
      (by norm_num [scipyMaxiter])⟩,
   ⟨by norm_num, by norm_num,
    exact_budget_enforcement.2.2.2.2 2 18 36 (by norm_num) (by norm_num)⟩⟩

end CalibrationHybrid
